import Mathlib

/-!
Verification of the continuous-dialog and voice-activity session engine of the
Obsidian voice-assistant plugin (`src/main.ts`).

The file shallowly embeds the parts of `main.ts` that the checked claims are
about.  Conventions used throughout:

* A fallible external call (`speechToText`, `callLLM`) is an `Option String`:
  `none` models the call throwing, `some s` models it resolving with `s`
  (possibly the empty string).
* JavaScript numbers appearing in the voice-activity classifier are modelled
  as rationals; all the classifier does with them is compare and score, which
  is exact.
* Timer- and playback-related behaviour is modelled as a labelled transition
  system whose events are the synchronous (run-to-completion) blocks of the
  source; asynchronous interleaving between those blocks is environment
  nondeterminism, reflected by events being enabled subject only to the
  guards the code itself checks.
-/

namespace VoiceAssistant

/-- One dialog turn, `{user, assistant, timestamp}`, as pushed onto
`conversationHistory` in `src/main.ts` (fields at line 146). -/
structure Turn where
  user : String
  assistant : String
  timestamp : Nat
deriving DecidableEq, Repr

/-- The sentinel string the recognizer substitutes when nothing was
recognized (`未识别到语音内容`, compared at `src/main.ts:369` and 3693). -/
def noSpeechSentinel : String := "未识别到语音内容"

/-- Embedding of `processSingleConversation` (src/main.ts:356-429), restricted
to its effect on `conversationHistory`.  `recognized` is the outcome of
`speechToText`, `llm` the outcome of `callLLM` on the (possibly prompt-
enhanced) text; `none` models the call throwing, which propagates out of the
function before any push.  The push at line 399 happens only in continuous
dialog mode; otherwise the pair is inserted into the note instead. -/
def processSingleConversation (history : List Turn) (recognized llm : Option String)
    (now : Nat) (isInContinuousDialog : Bool) : List Turn :=
  match recognized with
  | none => history
  | some text =>
    if text = "" ∨ text = noSpeechSentinel then history
    else
      match llm with
      | none => history
      | some response =>
        if response = "" then history
        else if isInContinuousDialog then history ++ [⟨text, response, now⟩]
        else history

/-- Strip leading and trailing whitespace from a character list. -/
def trimChars (l : List Char) : List Char :=
  ((l.dropWhile Char.isWhitespace).reverse.dropWhile Char.isWhitespace).reverse

/-- Embedding of JavaScript `String.prototype.trim`. -/
def jsTrim (s : String) : String := String.mk (trimChars s.data)

/-- Embedding of `processSingleConversationWithBuffer` (src/main.ts:3669-3743),
restricted to its effect on `conversationHistory`.  The recognition guard at
line 3693 additionally rejects blank text; the push at line 3709 happens with
no check on `aiResponse` (unlike the plain path's check at line 386), and a
thrown `callLLM` is caught at line 3736 before the push. -/
def processSingleConversationWithBuffer (history : List Turn)
    (recognized llm : Option String) (now : Nat) : List Turn :=
  match recognized with
  | none => history
  | some text =>
    if text = "" ∨ jsTrim text = "" ∨ text = noSpeechSentinel then history
    else
      match llm with
      | none => history
      | some response => history ++ [⟨text, response, now⟩]

/-- Composite feature score of `evaluateVoiceActivity` (src/main.ts:791-817),
accumulated exactly as in the source: dynamic-range band, zero-crossing-rate
band, the hard-coded `energyVariance > 0.0001` bonus, and the peak-amplitude
bonus. -/
def voiceScore (volumeThreshold dynamicRange zeroCrossingRate
    energyVariance maxAmplitude : ℚ) : Nat :=
  (if 2 < dynamicRange ∧ dynamicRange < 20 then 2
   else if (3 : ℚ)/2 < dynamicRange then 1 else 0)
  + (if (1 : ℚ)/100 < zeroCrossingRate ∧ zeroCrossingRate < (3 : ℚ)/10 then 2
     else if (1 : ℚ)/200 < zeroCrossingRate ∧ zeroCrossingRate < (1 : ℚ)/2 then 1 else 0)
  + (if (1 : ℚ)/10000 < energyVariance then 1 else 0)
  + (if volumeThreshold * 2 < maxAmplitude then 1 else 0)

/-- Embedding of `evaluateVoiceActivity` (src/main.ts:773-820): fast reject
below the threshold, fast accept above three times the threshold, otherwise
speech iff the composite score reaches 3. -/
def evaluateVoiceActivity (averageVolume volumeThreshold dynamicRange
    zeroCrossingRate energyVariance maxAmplitude : ℚ) : Bool :=
  if averageVolume < volumeThreshold then false
  else if volumeThreshold * 3 < averageVolume then true
  else decide (3 ≤ voiceScore volumeThreshold dynamicRange zeroCrossingRate
      energyVariance maxAmplitude)

/-- Modelled from the spec: the mid-band composite score as the spec words it,
with the frame-energy-variance epsilon as a configuration input ("frame-energy
variance > a small positive epsilon → +1; threshold and variance epsilon are
configuration inputs").  The other bands are as in the source.  This is the
spec-side definition compared against `voiceScore`. -/
def voiceScoreSpec (volumeThreshold dynamicRange zeroCrossingRate
    energyVariance maxAmplitude eps : ℚ) : Nat :=
  (if 2 < dynamicRange ∧ dynamicRange < 20 then 2
   else if (3 : ℚ)/2 < dynamicRange then 1 else 0)
  + (if (1 : ℚ)/100 < zeroCrossingRate ∧ zeroCrossingRate < (3 : ℚ)/10 then 2
     else if (1 : ℚ)/200 < zeroCrossingRate ∧ zeroCrossingRate < (1 : ℚ)/2 then 1 else 0)
  + (if eps < energyVariance then 1 else 0)
  + (if volumeThreshold * 2 < maxAmplitude then 1 else 0)

/-- Capacity of the pre-recording ring buffer
(`preRecordingBufferSize`, src/main.ts:169). -/
def preRecordingBufferSize : Nat := 10

/-- Embedding of `addToPreRecordingBuffer` (src/main.ts:3586-3595): `push` the
segment, then `shift` once if the length exceeds the capacity.  Audio blobs
are abstracted by an arbitrary type. -/
def addToPreRecordingBuffer {α : Type} (cap : Nat) (buffer : List α) (blob : α) :
    List α :=
  let b := buffer ++ [blob]
  if cap < b.length then b.tail else b

/-- One entry of `settings.customPrompts` (src/main.ts:41-46). -/
structure CustomPrompt where
  name : String
  trigger : String
  prompt : String
  enabled : Bool
deriving DecidableEq, Repr

/-- Substring test on character lists, used to embed JavaScript
`String.prototype.includes`. -/
def isInfixList (needle : List Char) : List Char → Bool
  | [] => needle.isEmpty
  | c :: t => needle.isPrefixOf (c :: t) || isInfixList needle t

/-- Lower-casing on character lists (JavaScript `String.prototype.toLowerCase`). -/
def lowerChars (l : List Char) : List Char := l.map Char.toLower

/-- `text.toLowerCase().includes(needle.toLowerCase())` (src/main.ts:3758). -/
def includesLower (text needle : String) : Bool :=
  isInfixList (lowerChars needle.data) (lowerChars text.data)

/-- Embedding of `processCustomPrompts` (src/main.ts:3748-3766): scan the
configured prompts in order, skip disabled ones, and on the first
case-insensitive trigger match return the prompt text prepended (with the
`用户输入：` label) to the original text; otherwise return the text unchanged. -/
def processCustomPrompts : List CustomPrompt → String → String
  | [], text => text
  | p :: ps, text =>
    if p.enabled && includesLower text p.trigger then
      p.prompt ++ "\n\n用户输入：" ++ text
    else processCustomPrompts ps text

/-- What `generateConversationSummary` hands to the persistence collaborator. -/
inductive PersistOutcome where
  | savedSummaryAndTranscript
  | savedTranscriptOnly
  | nothingSaved
deriving DecidableEq, Repr

/-- The summary request text built at src/main.ts:3779-3787 over the full turn
history.  `fmtTime` abstracts `Date.prototype.toLocaleTimeString`. -/
def conversationSummaryPrompt (fmtTime : Nat → String) (history : List Turn) :
    String :=
  "请对以下对话进行总结，提取关键信息和要点：\n\n"
  ++ String.join (history.map (fun item =>
       "[" ++ fmtTime item.timestamp ++ "] 用户：" ++ item.user ++ "\n"
       ++ "[" ++ fmtTime item.timestamp ++ "] 助手：" ++ item.assistant ++ "\n\n"))
  ++ "\n请生成一个简洁的总结，包括：\n1. 主要讨论的话题\n2. 关键信息和要点\n3. 如果有任务或行动项，请列出"

/-- Embedding of `generateConversationSummary` (src/main.ts:3771-3828).  The
first component is the request sent to the response client (`none` = no
request made); the second is what reaches the persistence collaborator.
`llm prompt = none` models `callLLM` throwing, which is caught at line 3824
where only a notice is shown; `some ""` is the falsy-summary branch at line
3811 which saves the raw transcript; a non-empty summary saves summary plus
transcript (line 3798). -/
def generateConversationSummaryRun (fmtTime : Nat → String)
    (llm : String → Option String) (history : List Turn) :
    Option String × PersistOutcome :=
  match history with
  | [] => (none, PersistOutcome.nothingSaved)
  | _ :: _ =>
    let prompt := conversationSummaryPrompt fmtTime history
    (some prompt,
      match llm prompt with
      | none => PersistOutcome.nothingSaved
      | some s =>
        if s = "" then PersistOutcome.savedTranscriptOnly
        else PersistOutcome.savedSummaryAndTranscript)

/-- Cursor position in the note editor (`{line, ch}`). -/
structure CursorPos where
  line : Nat
  ch : Nat
deriving DecidableEq, Repr

/-- The loop state of `startContinuousDictationLoop` (src/main.ts:489-583):
the accumulated audio segments, the time speech was last detected, the tracked
insert position and the running recognized text. -/
structure DictationLoopState (α : Type) where
  dictationAudioChunks : List α
  lastVoiceDetectedTime : Nat
  insertPosition : CursorPos
  allRecognizedText : String

/-- Embedding of `processAccumulatedAudio` (src/main.ts:589-624), as its
returned text: empty when there is nothing accumulated, when `speechToText`
throws (`recognized = none`, caught at line 620), or when the result is blank;
otherwise the recognized text. -/
def processAccumulatedAudio {α : Type} (chunks : List α)
    (recognized : Option String) : String :=
  match chunks with
  | [] => ""
  | _ :: _ =>
    match recognized with
    | none => ""
    | some t => if jsTrim t = "" then "" else t

/-- One iteration of the body of `startContinuousDictationLoop`
(src/main.ts:533-582) on a freshly captured segment.  `hasVoice` is the
outcome of `detectVoiceInAudio` on the segment, `now` the current time,
`recognized` the outcome of `speechToText` on the concatenated accumulated
audio (consulted only if a flush happens).  The returned Bool reports whether
a flush (a `processAccumulatedAudio` call) was attempted. -/
def dictationStep {α : Type} (silenceIntervalMs : Nat)
    (st : DictationLoopState α) (seg : α) (hasVoice : Bool) (now : Nat)
    (recognized : Option String) : DictationLoopState α × Bool :=
  if hasVoice then
    ({ st with dictationAudioChunks := st.dictationAudioChunks ++ [seg],
               lastVoiceDetectedTime := now }, false)
  else if st.dictationAudioChunks.isEmpty then (st, false)
  else if silenceIntervalMs ≤ now - st.lastVoiceDetectedTime then
    let t := processAccumulatedAudio st.dictationAudioChunks recognized
    if t ≠ "" ∧ jsTrim t ≠ "" then
      ({ st with dictationAudioChunks := [],
                 allRecognizedText := st.allRecognizedText ++ t ++ " ",
                 insertPosition := ⟨st.insertPosition.line,
                   st.insertPosition.ch + (t ++ " ").length⟩ }, true)
    else ({ st with dictationAudioChunks := [] }, true)
  else (st, false)

/-- TTS mode setting (`ttsMode`, src/main.ts:52). -/
inductive TtsMode where
  | disabled
  | online
deriving DecidableEq, Repr

/-- The slice of `VoiceAssistantSettings` that `onWakeWordDetected` touches,
with every other settings field abstracted into `rest`. -/
structure WakeSettings (ρ : Type) where
  ttsMode : TtsMode
  saveAudioToVault : Bool
  rest : ρ

/-- Embedding of the acknowledgement part of `onWakeWordDetected`
(src/main.ts:2383-2403).  `synthesisFails` says whether `textToSpeech` throws.
The try block saves `originalSaveAudio`, sets `saveAudioToVault` to false,
synthesizes, and restores on success (line 2397); the catch block executes the
self-assignment `settings.saveAudioToVault = settings.saveAudioToVault` (line
2401).  The second component reports whether the acknowledgement audio was
persisted to the vault: `playAudioFromBase64` persists only when
`settings.saveAudioToVault` is true at play time (src/main.ts:2064). -/
def onWakeWordDetected {ρ : Type} (s : WakeSettings ρ) (synthesisFails : Bool) :
    WakeSettings ρ × Bool :=
  if s.ttsMode = TtsMode.disabled then (s, false)
  else
    let s1 : WakeSettings ρ := { s with saveAudioToVault := false }
    if synthesisFails then
      ({ s1 with saveAudioToVault := s1.saveAudioToVault }, false)
    else
      ({ s1 with saveAudioToVault := s.saveAudioToVault }, s1.saveAudioToVault)

/-- One HTML `Audio` element created by `playAudioFromBase64`
(src/main.ts:1994); `playing` is the negation of its `paused` property. -/
structure AudioElem where
  id : Nat
  playing : Bool
deriving DecidableEq, Repr

/-- Playback-related plugin state: the live audio elements plus the fields
`this.currentAudio` and `this.isPlaying` (src/main.ts:140-141).  `nextId`
supplies fresh identifiers for newly created elements. -/
structure PlayerState where
  audios : List AudioElem
  currentAudio : Option Nat
  isPlaying : Bool
  nextId : Nat
deriving DecidableEq, Repr

/-- Initial playback state at plugin load. -/
def PlayerState.initState : PlayerState := ⟨[], none, false, 0⟩

/-- Set the `playing` flag of the element with the given id. -/
def setPlayingFlag (audios : List AudioElem) (i : Nat) (v : Bool) :
    List AudioElem :=
  audios.map fun a => if a.id = i then { a with playing := v } else a

/-- Whether the element with id `i` is currently playing
(JavaScript `!audio.paused`). -/
def audioIsPlaying (s : PlayerState) (i : Nat) : Bool :=
  s.audios.any fun a => a.id == i && a.playing

/-- Number of simultaneously active (playing) audio elements. -/
def countPlaying (s : PlayerState) : Nat :=
  (s.audios.filter fun a => a.playing).length

/-- The synchronous blocks of the source that touch playback state.  Their
invocation order is environment nondeterminism: `playNew` happens whenever any
pipeline (dialog turn TTS at src/main.ts:417 and 3721, voice reading at 901,
wake acknowledgement at 2394) reaches `playAudioFromBase64`, none of which
stops a previously created element first; `toggle` whenever the user clicks
the play/pause control; `endedEv` when a playing element finishes. -/
inductive PlayerEvent where
  | playNew            -- playAudioFromBase64 (src/main.ts:1944-2061)
  | endedEv (i : Nat)  -- the audio.onended handler (src/main.ts:2027-2036)
  | toggle             -- toggleTTSPlayback (src/main.ts:3204-3221)
  | interruptStop      -- stop-playback block of handleVoiceInterruption (src/main.ts:3642-3649)
  | stopTTSCmd         -- stopTTS (src/main.ts:3226-3235)
  | recordingStartPause -- startRecording in continuous dialog (src/main.ts:956-961)
deriving DecidableEq, Repr

/-- Transition function of the playback model; events whose code-side guard
fails leave the state unchanged. -/
def playerStep (s : PlayerState) : PlayerEvent → PlayerState
  | PlayerEvent.playNew =>
    { audios := ⟨s.nextId, true⟩ :: s.audios
      currentAudio := some s.nextId
      isPlaying := true
      nextId := s.nextId + 1 }
  | PlayerEvent.endedEv i =>
    if audioIsPlaying s i then
      { s with audios := s.audios.filter (fun a => a.id != i),
               currentAudio := none, isPlaying := false }
    else s
  | PlayerEvent.toggle =>
    match s.currentAudio with
    | none => s
    | some i =>
      if s.isPlaying then
        { s with audios := setPlayingFlag s.audios i false, isPlaying := false }
      else
        { s with audios := setPlayingFlag s.audios i true, isPlaying := true }
  | PlayerEvent.interruptStop =>
    match s.currentAudio with
    | none => s
    | some i =>
      if audioIsPlaying s i then
        { s with audios := setPlayingFlag s.audios i false,
                 currentAudio := none, isPlaying := false }
      else s
  | PlayerEvent.stopTTSCmd =>
    match s.currentAudio with
    | none => { s with isPlaying := false }
    | some i =>
      { s with audios := setPlayingFlag s.audios i false,
               currentAudio := none, isPlaying := false }
  | PlayerEvent.recordingStartPause =>
    match s.currentAudio with
    | none => s
    | some i =>
      if audioIsPlaying s i then
        { s with audios := setPlayingFlag s.audios i false, isPlaying := false }
      else s

/-- Reachable playback states. -/
inductive PlayerReachable : PlayerState → Prop where
  | init : PlayerReachable PlayerState.initState
  | step (s : PlayerState) (e : PlayerEvent) :
      PlayerReachable s → PlayerReachable (playerStep s e)

/-- A state with two simultaneously playing audio elements, reached by two
back-to-back `playAudioFromBase64` calls (e.g. the voice-reading command
issued while a dialog turn's TTS is still playing). -/
def twoPlaybackState : PlayerState :=
  playerStep (playerStep PlayerState.initState PlayerEvent.playNew)
    PlayerEvent.playNew

/-- Timer-related plugin state: the armed silence timer (`silenceTimer`,
src/main.ts:147), the interruption-monitor flag and poll timer
(`backgroundVoiceDetection` / `voiceDetectionTimer`, src/main.ts:151,154), the
session flag `isInContinuousDialog`, the set of timer ids passed to
`clearTimeout`, and a fresh-id counter. -/
structure TimerState where
  silenceTimer : Option Nat
  backgroundVoiceDetection : Bool
  voiceDetectionTimer : Option Nat
  isInContinuousDialog : Bool
  cancelled : List Nat
  nextId : Nat
deriving DecidableEq, Repr

/-- Initial timer state at plugin load. -/
def TimerState.initState : TimerState := ⟨none, false, none, false, [], 0⟩

/-- Record a `clearTimeout` on an (optionally) armed timer. -/
def cancelTimer (t : Option Nat) (c : List Nat) : List Nat :=
  match t with
  | none => c
  | some x => x :: c

/-- The synchronous blocks of the source that touch the session timers.
`setTimeout` handles are one-shot; a fired handle is consumed and ids are
never reused, so `cancelled` only ever grows. -/
inductive TimerEvent where
  | startDialog        -- startContinuousDialog (src/main.ts:335-351)
  | armSilence         -- startSilenceDetection (src/main.ts:3254-3262)
  | clearSilence       -- clearSilenceTimer (src/main.ts:3267-3272)
  | startMonitor       -- startBackgroundVoiceDetection arming its poll (src/main.ts:3421-3481)
  | monitorPoll        -- checkVolume firing without interruption, re-arming (src/main.ts:3454-3479)
  | monitorInterrupt   -- checkVolume's third detection → handleVoiceInterruption (src/main.ts:3465-3468, 3638-3655)
  | stopMonitor        -- stopBackgroundVoiceDetection (src/main.ts:3492-3509)
  | endDialog          -- synchronous tail of endContinuousDialogWithSummary (src/main.ts:3330-3335) / endContinuousDialog (src/main.ts:3277-3303)
  | fireSilence (t : Nat) -- the armed silence timeout expiring (src/main.ts:3258)
deriving DecidableEq, Repr

/-- Transition function of the timer model.  A `fireSilence t` event is
enabled only when `t` is the armed silence timer — `clearTimeout` semantics:
a cleared or already-fired handle never fires. -/
def timerStep (s : TimerState) : TimerEvent → TimerState
  | TimerEvent.startDialog => { s with isInContinuousDialog := true }
  | TimerEvent.armSilence =>
    { s with silenceTimer := some s.nextId,
             cancelled := cancelTimer s.silenceTimer s.cancelled,
             nextId := s.nextId + 1 }
  | TimerEvent.clearSilence =>
    { s with silenceTimer := none,
             cancelled := cancelTimer s.silenceTimer s.cancelled }
  | TimerEvent.startMonitor =>
    if s.backgroundVoiceDetection then s
    else
      { s with backgroundVoiceDetection := true,
               voiceDetectionTimer := some s.nextId,
               nextId := s.nextId + 1 }
  | TimerEvent.monitorPoll =>
    match s.voiceDetectionTimer with
    | none => s
    | some _ =>
      if s.backgroundVoiceDetection then
        { s with voiceDetectionTimer := some s.nextId, nextId := s.nextId + 1 }
      else { s with voiceDetectionTimer := none }
  | TimerEvent.monitorInterrupt =>
    match s.voiceDetectionTimer with
    | none => s
    | some x =>
      if s.backgroundVoiceDetection then
        { s with backgroundVoiceDetection := false,
                 voiceDetectionTimer := none,
                 silenceTimer := none,
                 cancelled := x :: cancelTimer s.silenceTimer s.cancelled }
      else { s with voiceDetectionTimer := none }
  | TimerEvent.stopMonitor =>
    if s.backgroundVoiceDetection then
      { s with backgroundVoiceDetection := false,
               voiceDetectionTimer := none,
               cancelled := cancelTimer s.voiceDetectionTimer s.cancelled }
    else s
  | TimerEvent.endDialog =>
    if s.isInContinuousDialog then
      if s.backgroundVoiceDetection then
        { s with isInContinuousDialog := false,
                 silenceTimer := none,
                 backgroundVoiceDetection := false,
                 voiceDetectionTimer := none,
                 cancelled := cancelTimer s.voiceDetectionTimer
                   (cancelTimer s.silenceTimer s.cancelled) }
      else
        { s with isInContinuousDialog := false,
                 silenceTimer := none,
                 cancelled := cancelTimer s.silenceTimer s.cancelled }
    else s
  | TimerEvent.fireSilence t =>
    if s.silenceTimer = some t then { s with silenceTimer := none } else s

/-- Reachable timer states. -/
inductive TimerReachable : TimerState → Prop where
  | init : TimerReachable TimerState.initState
  | step (s : TimerState) (e : TimerEvent) :
      TimerReachable s → TimerReachable (timerStep s e)

/-- Well-formedness invariant of the timer model: armed timer handles are
fresh, distinct, and have never been cancelled, and the monitor poll timer is
armed only while the monitor flag is set. -/
def TimerInv (s : TimerState) : Prop :=
  (∀ t, s.silenceTimer = some t → t ∉ s.cancelled ∧ t < s.nextId)
  ∧ (∀ t, s.voiceDetectionTimer = some t → t ∉ s.cancelled ∧ t < s.nextId)
  ∧ (∀ c ∈ s.cancelled, c < s.nextId)
  ∧ (s.backgroundVoiceDetection = false → s.voiceDetectionTimer = none)
  ∧ (∀ t u, s.silenceTimer = some t → s.voiceDetectionTimer = some u → t ≠ u)

/-- A running dialog session whose silence timer (handle 0) has been armed
and then cancelled: start the dialog, arm the 20-second silence timer, clear
it. -/
def timerDemoState : TimerState :=
  timerStep (timerStep (timerStep TimerState.initState TimerEvent.startDialog)
    TimerEvent.armSilence) TimerEvent.clearSilence

/-! ### Theorems -/

/-- C2: for every decodable segment, the classifier returns false whenever the
average amplitude is below the configured threshold, regardless of all other
features, and returns true whenever the average amplitude is above three
times the threshold.  The hypothesis `0 ≤ thr` reflects the configured range
of `voiceDetectionThreshold` (0-100, divided by 1000 at src/main.ts:688). -/
theorem c2_amplitude_fast_paths (avg thr dr zcr ev maxA : ℚ) :
    (avg < thr → evaluateVoiceActivity avg thr dr zcr ev maxA = false)
    ∧ (0 ≤ thr → thr * 3 < avg → evaluateVoiceActivity avg thr dr zcr ev maxA = true) := by
  constructor
  · intro h
    simp [evaluateVoiceActivity, h]
  · intro h0 h3
    have hth : thr ≤ thr * 3 := by nlinarith
    have h1 : ¬ avg < thr := not_lt.mpr (le_of_lt (lt_of_le_of_lt hth h3))
    simp [evaluateVoiceActivity, h1, h3]

/-- Witness for `c2_amplitude_fast_paths` at concrete inputs. -/
theorem c2_witness :
    evaluateVoiceActivity 0 1 5 5 5 5 = false
    ∧ evaluateVoiceActivity 4 1 0 0 0 0 = true :=
  ⟨(c2_amplitude_fast_paths 0 1 5 5 5 5).1 (by norm_num),
   (c2_amplitude_fast_paths 4 1 0 0 0 0).2 (by norm_num) (by norm_num)⟩

/-- C3, counterexample: the claim says the variance epsilon is a configuration
input, but the source compares against the hard-coded literal `0.0001`
(src/main.ts:809).  At the mid-band feature vector below (average 0.06,
threshold 0.05, dynamic range 100/61, zero-crossing rate 0.4, frame-energy
variance 0.0005, peak 0.1) the code classifies speech, while the spec-side
classifier configured with the equally "small positive" epsilon 0.001 scores
only 2 and classifies silence — so the epsilon is not configurable. -/
theorem c3_counterexample :
    evaluateVoiceActivity (3/50) (1/20) (100/61) (2/5) (1/2000) (1/10) = true
    ∧ voiceScoreSpec (1/20) (100/61) (2/5) (1/2000) (1/10) (1/1000) = 2 := by
  constructor
  · norm_num [evaluateVoiceActivity, voiceScore]
  · norm_num [voiceScoreSpec]

/-- C3, amended: for every decodable segment in the mid band (average
amplitude between the threshold and three times the threshold), the classifier
returns speech iff the composite score is at least 3, with the band bonuses as
claimed but with the variance epsilon fixed to the constant 1/10000 (0.0001)
rather than being a configuration input. -/
theorem c3_amended_fixed_epsilon (avg thr dr zcr ev maxA : ℚ)
    (h1 : ¬ avg < thr) (h2 : ¬ thr * 3 < avg) :
    evaluateVoiceActivity avg thr dr zcr ev maxA
      = decide (3 ≤ voiceScoreSpec thr dr zcr ev maxA (1/10000)) := by
  have hs : voiceScore thr dr zcr ev maxA = voiceScoreSpec thr dr zcr ev maxA (1/10000) := rfl
  simp only [evaluateVoiceActivity, if_neg h1, if_neg h2, hs]

/-- Witness for `c3_amended_fixed_epsilon` at a concrete mid-band input. -/
theorem c3_amended_witness :
    evaluateVoiceActivity 1 1 0 0 0 0
      = decide (3 ≤ voiceScoreSpec 1 0 0 0 0 (1/10000)) :=
  c3_amended_fixed_epsilon 1 1 0 0 0 0 (by norm_num) (by norm_num)

/-- C7: the pre-recording rolling buffer never exceeds its configured capacity
of 10 segments, and a push into a full buffer evicts exactly the oldest
segment, preserving the relative order of the rest. -/
theorem c7_preRecordingBuffer {α : Type} (buffer : List α) (x : α) :
    (buffer.length ≤ preRecordingBufferSize →
      (addToPreRecordingBuffer preRecordingBufferSize buffer x).length
        ≤ preRecordingBufferSize)
    ∧ (buffer.length = preRecordingBufferSize →
      addToPreRecordingBuffer preRecordingBufferSize buffer x = buffer.tail ++ [x]) := by
  constructor
  · intro h
    simp only [addToPreRecordingBuffer]
    split
    · next hlt =>
      simp only [List.length_tail, List.length_append, List.length_singleton]
      omega
    · next hge =>
      simp only [List.length_append, List.length_singleton] at hge ⊢
      omega
  · intro h
    cases buffer with
    | nil => simp [preRecordingBufferSize] at h
    | cons a t =>
      simp only [addToPreRecordingBuffer]
      have hlen : preRecordingBufferSize < (a :: t ++ [x]).length := by
        simp only [List.cons_append, List.length_append, List.length_cons,
          List.length_singleton]
        simp only [List.length_cons] at h
        omega
      rw [if_pos hlen]
      simp

/-- Witness for `c7_preRecordingBuffer` at a full 10-element buffer. -/
theorem c7_witness :
    addToPreRecordingBuffer preRecordingBufferSize
        [0, 1, 2, 3, 4, 5, 6, 7, 8, 9] (10 : Nat)
      = [1, 2, 3, 4, 5, 6, 7, 8, 9, 10] :=
  (c7_preRecordingBuffer [0, 1, 2, 3, 4, 5, 6, 7, 8, 9] 10).2 (by decide)

/-- C1, counterexample: the claim says no `Turn` is recorded when the
response step returns empty, but `processSingleConversationWithBuffer` pushes
the turn at src/main.ts:3709 with no check on `aiResponse` (unlike the plain
path's check at line 386): a successful `callLLM` resolving with the empty
string still records a `Turn`. -/
theorem c1_counterexample :
    processSingleConversationWithBuffer [] (some "你好") (some "") 0
      = [⟨"你好", "", 0⟩] := by
  decide

/-- C1, amended: per recognize+respond cycle at most one `Turn` is appended,
and a failing step records nothing; in the plain continuous-dialog path a
`Turn` is appended exactly when recognition returned usable non-empty text and
the response step succeeded with non-empty text, while in the
interruption/buffered path a `Turn` is appended exactly when recognition
returned usable non-blank text and the response step did not throw — even when
the response text is empty. -/
theorem c1_amended_turn_recording (history : List Turn)
    (recognized llm : Option String) (now : Nat) :
    (∀ t r, recognized = some t → llm = some r → t ≠ "" → t ≠ noSpeechSentinel →
      r ≠ "" →
      processSingleConversation history recognized llm now true
        = history ++ [⟨t, r, now⟩])
    ∧ ((recognized = none ∨ llm = none
        ∨ (∃ t, recognized = some t ∧ (t = "" ∨ t = noSpeechSentinel))
        ∨ llm = some "") →
      processSingleConversation history recognized llm now true = history)
    ∧ (∀ t r, recognized = some t → llm = some r → jsTrim t ≠ "" →
      t ≠ noSpeechSentinel →
      processSingleConversationWithBuffer history recognized llm now
        = history ++ [⟨t, r, now⟩])
    ∧ ((recognized = none ∨ llm = none
        ∨ (∃ t, recognized = some t ∧ (jsTrim t = "" ∨ t = noSpeechSentinel))) →
      processSingleConversationWithBuffer history recognized llm now = history)
    ∧ (processSingleConversation history recognized llm now true = history
       ∨ ∃ u, processSingleConversation history recognized llm now true
           = history ++ [u])
    ∧ (processSingleConversationWithBuffer history recognized llm now = history
       ∨ ∃ u, processSingleConversationWithBuffer history recognized llm now
           = history ++ [u]) := by
  refine ⟨?_, ?_, ?_, ?_, ?_, ?_⟩
  · rintro t r rfl rfl h1 h2 h3
    simp [processSingleConversation, h1, h2, h3]
  · rintro (rfl | rfl | ⟨t, rfl, (rfl | rfl)⟩ | rfl)
    · rfl
    · cases recognized with
      | none => rfl
      | some t =>
        by_cases h : t = "" ∨ t = noSpeechSentinel <;>
          simp [processSingleConversation, h]
    · simp [processSingleConversation]
    · simp [processSingleConversation]
    · cases recognized with
      | none => rfl
      | some t =>
        by_cases h : t = "" ∨ t = noSpeechSentinel <;>
          simp [processSingleConversation, h]
  · rintro t r rfl rfl h1 h2
    have h0 : t ≠ "" := by
      intro h
      subst h
      exact h1 rfl
    simp [processSingleConversationWithBuffer, h0, h1, h2]
  · rintro (rfl | rfl | ⟨t, rfl, (h | rfl)⟩)
    · rfl
    · cases recognized with
      | none => rfl
      | some t =>
        by_cases h : t = "" ∨ jsTrim t = "" ∨ t = noSpeechSentinel <;>
          simp [processSingleConversationWithBuffer, h]
    · simp [processSingleConversationWithBuffer, h]
    · simp [processSingleConversationWithBuffer]
  · cases recognized with
    | none => exact Or.inl rfl
    | some t =>
      by_cases h1 : t = "" ∨ t = noSpeechSentinel
      · exact Or.inl (by simp [processSingleConversation, h1])
      · cases llm with
        | none => exact Or.inl (by simp [processSingleConversation, h1])
        | some r =>
          by_cases h2 : r = ""
          · exact Or.inl (by simp [processSingleConversation, h1, h2])
          · exact Or.inr ⟨⟨t, r, now⟩, by simp [processSingleConversation, h1, h2]⟩
  · cases recognized with
    | none => exact Or.inl rfl
    | some t =>
      by_cases h1 : t = "" ∨ jsTrim t = "" ∨ t = noSpeechSentinel
      · exact Or.inl (by simp [processSingleConversationWithBuffer, h1])
      · cases llm with
        | none => exact Or.inl (by simp [processSingleConversationWithBuffer, h1])
        | some r =>
          exact Or.inr ⟨⟨t, r, now⟩, by simp [processSingleConversationWithBuffer, h1]⟩

/-- Witness for `c1_amended_turn_recording`: both paths record exactly one
turn on a fully successful cycle. -/
theorem c1_amended_witness :
    processSingleConversation [] (some "hi") (some "ok") 0 true
      = [⟨"hi", "ok", 0⟩]
    ∧ processSingleConversationWithBuffer [] (some "hi") (some "ok") 1
      = [⟨"hi", "ok", 1⟩] :=
  ⟨(c1_amended_turn_recording [] (some "hi") (some "ok") 0).1 "hi" "ok" rfl rfl
      (by decide) (by decide) (by decide),
   (c1_amended_turn_recording [] (some "hi") (some "ok") 1).2.2.1 "hi" "ok" rfl
      rfl (by decide) (by decide)⟩

/-- C6, counterexample: the claim says that for every ending session with a
non-empty turn list something is persisted, but when `callLLM` throws the
exception is caught at src/main.ts:3824 where only a notice is shown — neither
the summary nor the raw transcript reaches persistence. -/
theorem c6_counterexample :
    (generateConversationSummaryRun (fun _ => "12:00") (fun _ => none)
        [⟨"你好", "你好！", 0⟩]).2 = PersistOutcome.nothingSaved := rfl

/-- C6, amended: when a session ends with at least one turn, a summary request
over the concatenated turn transcript is sent to the response client; a
non-empty summary result is persisted together with the transcript; an empty
summary result falls back to persisting the raw transcript alone; but a
summary call that throws persists nothing (only an error notice is shown). -/
theorem c6_amended_summary_persistence (fmtTime : Nat → String)
    (llm : String → Option String) (history : List Turn) (hne : history ≠ []) :
    (generateConversationSummaryRun fmtTime llm history).1
      = some (conversationSummaryPrompt fmtTime history)
    ∧ (llm (conversationSummaryPrompt fmtTime history) = none →
      (generateConversationSummaryRun fmtTime llm history).2
        = PersistOutcome.nothingSaved)
    ∧ (llm (conversationSummaryPrompt fmtTime history) = some "" →
      (generateConversationSummaryRun fmtTime llm history).2
        = PersistOutcome.savedTranscriptOnly)
    ∧ (∀ s, llm (conversationSummaryPrompt fmtTime history) = some s → s ≠ "" →
      (generateConversationSummaryRun fmtTime llm history).2
        = PersistOutcome.savedSummaryAndTranscript) := by
  cases history with
  | nil => exact absurd rfl hne
  | cons a l =>
    refine ⟨rfl, ?_, ?_, ?_⟩
    · intro h
      simp [generateConversationSummaryRun, h]
    · intro h
      simp [generateConversationSummaryRun, h]
    · intro s h hs
      simp [generateConversationSummaryRun, h, hs]

/-- Witness for `c6_amended_summary_persistence`: a successful summary is
persisted together with the transcript. -/
theorem c6_amended_witness :
    (generateConversationSummaryRun (fun _ => "12:00") (fun _ => some "总结")
        [⟨"a", "b", 0⟩]).2 = PersistOutcome.savedSummaryAndTranscript :=
  (c6_amended_summary_persistence (fun _ => "12:00") (fun _ => some "总结")
      [⟨"a", "b", 0⟩] (by simp)).2.2.2 "总结" rfl (by decide)

/-- C8: in a dictation session an iteration attempts a flush exactly when no
voice was detected in the fresh segment, the accumulated segment list is
non-empty, and the elapsed silence since the last detected speech has reached
the configured silence interval; and after every flush attempt — whether
recognition succeeds, fails, or returns an empty result — the accumulated
segment list is cleared to empty. -/
theorem c8_dictation_flush {α : Type} (ms : Nat) (st : DictationLoopState α)
    (seg : α) (hasVoice : Bool) (now : Nat) (recognized : Option String) :
    ((dictationStep ms st seg hasVoice now recognized).2 = true ↔
      (hasVoice = false ∧ st.dictationAudioChunks ≠ []
        ∧ ms ≤ now - st.lastVoiceDetectedTime))
    ∧ ((dictationStep ms st seg hasVoice now recognized).2 = true →
      (dictationStep ms st seg hasVoice now
          recognized).1.dictationAudioChunks = []) := by
  cases hasVoice with
  | true => simp [dictationStep]
  | false =>
    cases hch : st.dictationAudioChunks with
    | nil => simp [dictationStep, hch]
    | cons c cs =>
      by_cases hms : ms ≤ now - st.lastVoiceDetectedTime
      · have h2 : (dictationStep ms st seg false now recognized).2 = true := by
          simp only [dictationStep, hch, if_pos hms]
          split
          next hfalse => exact absurd hfalse (by simp)
          next =>
            split
            next hemp => exact absurd hemp (by simp)
            next => split <;> rfl
        have h1 : (dictationStep ms st seg false now
            recognized).1.dictationAudioChunks = [] := by
          simp only [dictationStep, hch, if_pos hms]
          split
          next hfalse => exact absurd hfalse (by simp)
          next =>
            split
            next hemp => exact absurd hemp (by simp)
            next => split <;> rfl
        exact ⟨⟨fun _ => ⟨rfl, by simp [hch], hms⟩, fun _ => h2⟩, fun _ => h1⟩
      · simp [dictationStep, hch, hms]

/-- Witness for `c8_dictation_flush`: a silence segment after a long enough
pause flushes and clears the accumulated list even when recognition throws. -/
theorem c8_witness :
    (dictationStep 2000 (⟨[7], 0, ⟨0, 0⟩, ""⟩ : DictationLoopState Nat) 9 false
        5000 none).2 = true
    ∧ (dictationStep 2000 (⟨[7], 0, ⟨0, 0⟩, ""⟩ : DictationLoopState Nat) 9
        false 5000 none).1.dictationAudioChunks = [] := by
  have h := c8_dictation_flush 2000
    (⟨[7], 0, ⟨0, 0⟩, ""⟩ : DictationLoopState Nat) 9 false 5000 none
  have h2 := h.1.mpr ⟨rfl, by decide, by decide⟩
  exact ⟨h2, h.2 h2⟩

/-- C9 (code bug): the acknowledgement utterance is never persisted, and on
the success path `saveAudioToVault` is restored; but on the synthesis-failure
path the catch block at src/main.ts:2401 executes the self-assignment
`this.settings.saveAudioToVault = this.settings.saveAudioToVault` — despite
its own comment `确保恢复音频保存设置` — so a previously enabled
`saveAudioToVault` stays disabled instead of being restored.  The other
settings fields are untouched on both paths. -/
theorem c9_wake_ack_save_restore_bug :
    (∀ (ρ : Type) (s : WakeSettings ρ) (b : Bool),
      (onWakeWordDetected s b).2 = false)
    ∧ (onWakeWordDetected
        (⟨TtsMode.online, true, ()⟩ : WakeSettings Unit) true).1.saveAudioToVault
        = false
    ∧ (onWakeWordDetected
        (⟨TtsMode.online, true, ()⟩ : WakeSettings Unit) false).1.saveAudioToVault
        = true
    ∧ (∀ (ρ : Type) (s : WakeSettings ρ) (b : Bool),
      (onWakeWordDetected s b).1.ttsMode = s.ttsMode
        ∧ (onWakeWordDetected s b).1.rest = s.rest) := by
  refine ⟨?_, rfl, rfl, ?_⟩
  · intro ρ s b
    by_cases h : s.ttsMode = TtsMode.disabled <;> cases b <;>
      simp [onWakeWordDetected, h]
  · intro ρ s b
    by_cases h : s.ttsMode = TtsMode.disabled <;> cases b <;>
      simp [onWakeWordDetected, h]

/-- C10: the custom-prompt preprocessing returns the text unchanged exactly
when no enabled prompt's trigger is a case-insensitive substring of it;
otherwise it applies the first enabled matching prompt in configuration order
— prepending that prompt's instruction text (with the `用户输入：` label) to
the original text — and the applied prompt is always enabled. -/
theorem c10_custom_prompts (prompts : List CustomPrompt) (text : String) :
    (processCustomPrompts prompts text = text ↔
      prompts.find? (fun p => p.enabled && includesLower text p.trigger) = none)
    ∧ (∀ q,
      prompts.find? (fun p => p.enabled && includesLower text p.trigger) = some q →
      processCustomPrompts prompts text = q.prompt ++ "\n\n用户输入：" ++ text
        ∧ q.enabled = true) := by
  induction prompts with
  | nil => exact ⟨by simp [processCustomPrompts], by simp⟩
  | cons a l ih =>
    by_cases h : (a.enabled && includesLower text a.trigger) = true
    · have happ : processCustomPrompts (a :: l) text
          = a.prompt ++ "\n\n用户输入：" ++ text := by
        simp [processCustomPrompts, h]
      have hlen : (a.prompt ++ "\n\n用户输入：" ++ text).length ≠ text.length := by
        simp only [String.length_append]
        have h7 : ("\n\n用户输入：" : String).length = 7 := rfl
        omega
      have hne : a.prompt ++ "\n\n用户输入：" ++ text ≠ text := fun he =>
        hlen (by rw [he])
      have hfind : List.find?
          (fun p => p.enabled && includesLower text p.trigger) (a :: l)
            = some a :=
        List.find?_cons_of_pos l h
      constructor
      · rw [happ, hfind]
        constructor
        · intro he
          exact absurd he hne
        · intro he
          cases he
      · intro q hq
        rw [hfind] at hq
        cases hq
        have hh := h
        simp only [Bool.and_eq_true] at hh
        exact ⟨happ, hh.1⟩
    · have happ : processCustomPrompts (a :: l) text
          = processCustomPrompts l text := by
        simp [processCustomPrompts, h]
      have hfind : List.find?
          (fun p => p.enabled && includesLower text p.trigger) (a :: l)
            = List.find? (fun p => p.enabled && includesLower text p.trigger) l :=
        List.find?_cons_of_neg l (by simpa using h)
      rw [happ, hfind]
      exact ih

/-- Witness for `c10_custom_prompts` on the default prompt configuration. -/
theorem c10_witness :
    processCustomPrompts [⟨"任务提醒", "提醒我", "指令", true⟩] "请提醒我明天开会"
      = "指令" ++ "\n\n用户输入：" ++ "请提醒我明天开会" :=
  ((c10_custom_prompts [⟨"任务提醒", "提醒我", "指令", true⟩] "请提醒我明天开会").2
    ⟨"任务提醒", "提醒我", "指令", true⟩ (by decide)).1

/-- Pausing the element with id `i` leaves no playing element with that id. -/
theorem any_setPlayingFlag_false (audios : List AudioElem) (i : Nat) :
    ((setPlayingFlag audios i false).any fun a => a.id == i && a.playing)
      = false := by
  induction audios with
  | nil => rfl
  | cons a t ih =>
    simp only [setPlayingFlag, List.map_cons, List.any_cons] at ih ⊢
    rw [ih, Bool.or_false]
    by_cases h : a.id = i
    · simp [h]
    · simp [h]

/-- C4, counterexample: the claim's invariant "at most one playback stream is
active in every reachable state" fails: `playAudioFromBase64` installs a new
`Audio` element (src/main.ts:1994-1997) without stopping a previously created
one, and nothing guards concurrent pipelines (e.g. the voice-reading command's
TTS at src/main.ts:901 while a dialog turn's TTS from line 417 is still
playing), so two back-to-back `playNew` events reach a state with two
simultaneously playing elements. -/
theorem c4_counterexample :
    PlayerReachable twoPlaybackState ∧ 2 ≤ countPlaying twoPlaybackState := by
  constructor
  · show PlayerReachable (playerStep
      (playerStep PlayerState.initState PlayerEvent.playNew) PlayerEvent.playNew)
    exact PlayerReachable.step _ _ (PlayerReachable.step _ _ PlayerReachable.init)
  · decide

/-- C4, amended: whenever a voice interruption fires during assistant playback
(the current audio element is playing), the stop-playback block of
`handleVoiceInterruption` pauses and discards it — afterwards that element is
not playing, `currentAudio` is cleared and `isPlaying` is false — before
`processSingleConversationWithBuffer` starts the next recording; additionally
`startRecording` itself pauses a playing current audio on entry.  The global
"at most one active playback stream" invariant, however, does not hold (see
the counterexample). -/
theorem c4_amended_interruption_stops_playback (s : PlayerState) (i : Nat)
    (hc : s.currentAudio = some i) (hp : audioIsPlaying s i = true) :
    (audioIsPlaying (playerStep s PlayerEvent.interruptStop) i = false
     ∧ (playerStep s PlayerEvent.interruptStop).currentAudio = none
     ∧ (playerStep s PlayerEvent.interruptStop).isPlaying = false)
    ∧ audioIsPlaying (playerStep s PlayerEvent.recordingStartPause) i = false := by
  constructor
  · refine ⟨?_, ?_, ?_⟩
    · simp only [playerStep, hc, hp, if_pos]
      exact any_setPlayingFlag_false s.audios i
    · simp only [playerStep, hc, hp, if_pos]
    · simp only [playerStep, hc, hp, if_pos]
  · simp only [playerStep, hc, hp, if_pos]
    exact any_setPlayingFlag_false s.audios i

/-- Witness for `c4_amended_interruption_stops_playback`: interrupting right
after a playback start leaves the started element paused and discarded. -/
theorem c4_amended_witness :
    audioIsPlaying (playerStep (playerStep PlayerState.initState
        PlayerEvent.playNew) PlayerEvent.interruptStop) 0 = false :=
  (c4_amended_interruption_stops_playback
    (playerStep PlayerState.initState PlayerEvent.playNew) 0 rfl rfl).1.1

/-- Membership in the cancelled list after a `clearTimeout`. -/
theorem mem_cancelTimer (t : Nat) (o : Option Nat) (c : List Nat) :
    t ∈ cancelTimer o c ↔ o = some t ∨ t ∈ c := by
  cases o with
  | none => simp [cancelTimer]
  | some x =>
    constructor
    · intro hm
      rcases List.mem_cons.mp hm with rfl | hm'
      · exact Or.inl rfl
      · exact Or.inr hm'
    · rintro (hx | hm)
      · obtain rfl := Option.some.inj hx
        exact List.mem_cons_self _ _
      · exact List.mem_cons_of_mem _ hm

/-- The timer invariant holds in the initial state. -/
theorem timerInv_init : TimerInv TimerState.initState := by
  refine ⟨?_, ?_, ?_, ?_, ?_⟩ <;> simp [TimerState.initState, TimerInv]

/-- Every event of the timer model preserves the timer invariant. -/
theorem timerInv_step (s : TimerState) (e : TimerEvent) (h : TimerInv s) :
    TimerInv (timerStep s e) := by
  obtain ⟨h1, h2, h3, h4, h5⟩ := h
  cases e with
  | startDialog => exact ⟨h1, h2, h3, h4, h5⟩
  | armSilence =>
    dsimp only [timerStep, TimerInv]
    refine ⟨?_, ?_, ?_, h4, ?_⟩
    · intro t ht
      have ht' := Option.some.inj ht
      subst ht'
      refine ⟨?_, by omega⟩
      rw [mem_cancelTimer]
      rintro (hx | hm)
      · exact absurd (h1 _ hx).2 (lt_irrefl _)
      · exact absurd (h3 _ hm) (lt_irrefl _)
    · intro t ht
      obtain ⟨hnc, hlt⟩ := h2 t ht
      refine ⟨?_, by omega⟩
      rw [mem_cancelTimer]
      rintro (hx | hm)
      · exact h5 t t hx ht rfl
      · exact hnc hm
    · intro x hm
      rw [mem_cancelTimer] at hm
      rcases hm with hx | hm
      · have := (h1 _ hx).2
        omega
      · have := h3 _ hm
        omega
    · intro t u ht hu
      have ht' := Option.some.inj ht
      subst ht'
      have := (h2 _ hu).2
      omega
  | clearSilence =>
    dsimp only [timerStep, TimerInv]
    refine ⟨?_, ?_, ?_, h4, ?_⟩
    · intro t ht
      exact Option.noConfusion ht
    · intro t ht
      obtain ⟨hnc, hlt⟩ := h2 t ht
      refine ⟨?_, hlt⟩
      rw [mem_cancelTimer]
      rintro (hx | hm)
      · exact h5 t t hx ht rfl
      · exact hnc hm
    · intro x hm
      rw [mem_cancelTimer] at hm
      rcases hm with hx | hm
      · exact (h1 _ hx).2
      · exact h3 _ hm
    · intro t u ht hu
      exact Option.noConfusion ht
  | startMonitor =>
    dsimp only [timerStep]
    by_cases hb : s.backgroundVoiceDetection = true
    · rw [if_pos hb]
      exact ⟨h1, h2, h3, h4, h5⟩
    · rw [if_neg hb]
      dsimp only [TimerInv]
      refine ⟨?_, ?_, ?_, ?_, ?_⟩
      · intro t ht
        obtain ⟨hnc, hlt⟩ := h1 t ht
        exact ⟨hnc, by omega⟩
      · intro t ht
        have ht' := Option.some.inj ht
        subst ht'
        exact ⟨fun hm => absurd (h3 _ hm) (lt_irrefl _), by omega⟩
      · intro x hm
        have := h3 _ hm
        omega
      · intro hf
        exact absurd hf (by simp)
      · intro t u ht hu
        have hu' := Option.some.inj hu
        subst hu'
        have := (h1 _ ht).2
        omega
  | monitorPoll =>
    dsimp only [timerStep]
    cases hv : s.voiceDetectionTimer with
    | none =>
      exact ⟨h1, h2, h3, h4, h5⟩
    | some x =>
      dsimp only
      by_cases hb : s.backgroundVoiceDetection = true
      · rw [if_pos hb]
        dsimp only [TimerInv]
        refine ⟨?_, ?_, ?_, ?_, ?_⟩
        · intro t ht
          obtain ⟨hnc, hlt⟩ := h1 t ht
          exact ⟨hnc, by omega⟩
        · intro t ht
          have ht' := Option.some.inj ht
          subst ht'
          exact ⟨fun hm => absurd (h3 _ hm) (lt_irrefl _), by omega⟩
        · intro y hm
          have := h3 _ hm
          omega
        · intro hf
          rw [hf] at hb
          exact absurd hb (by simp)
        · intro t u ht hu
          have hu' := Option.some.inj hu
          subst hu'
          have := (h1 _ ht).2
          omega
      · rw [if_neg hb]
        dsimp only [TimerInv]
        refine ⟨h1, ?_, h3, fun _ => rfl, ?_⟩
        · intro t ht
          exact Option.noConfusion ht
        · intro t u ht hu
          exact Option.noConfusion hu
  | monitorInterrupt =>
    dsimp only [timerStep]
    cases hv : s.voiceDetectionTimer with
    | none =>
      exact ⟨h1, h2, h3, h4, h5⟩
    | some x =>
      dsimp only
      by_cases hb : s.backgroundVoiceDetection = true
      · rw [if_pos hb]
        dsimp only [TimerInv]
        refine ⟨?_, ?_, ?_, fun _ => rfl, ?_⟩
        · intro t ht
          exact Option.noConfusion ht
        · intro t ht
          exact Option.noConfusion ht
        · intro y hm
          rcases List.mem_cons.mp hm with rfl | hm'
          · exact (h2 _ hv).2
          · rw [mem_cancelTimer] at hm'
            rcases hm' with hx | hm''
            · exact (h1 _ hx).2
            · exact h3 _ hm''
        · intro t u ht hu
          exact Option.noConfusion ht
      · rw [if_neg hb]
        dsimp only [TimerInv]
        refine ⟨h1, ?_, h3, fun _ => rfl, ?_⟩
        · intro t ht
          exact Option.noConfusion ht
        · intro t u ht hu
          exact Option.noConfusion hu
  | stopMonitor =>
    dsimp only [timerStep]
    by_cases hb : s.backgroundVoiceDetection = true
    · rw [if_pos hb]
      dsimp only [TimerInv]
      refine ⟨?_, ?_, ?_, fun _ => rfl, ?_⟩
      · intro t ht
        obtain ⟨hnc, hlt⟩ := h1 t ht
        refine ⟨?_, hlt⟩
        rw [mem_cancelTimer]
        rintro (hx | hm)
        · exact h5 t t ht hx rfl
        · exact hnc hm
      · intro t ht
        exact Option.noConfusion ht
      · intro x hm
        rw [mem_cancelTimer] at hm
        rcases hm with hx | hm
        · exact (h2 _ hx).2
        · exact h3 _ hm
      · intro t u ht hu
        exact Option.noConfusion hu
    · rw [if_neg hb]
      exact ⟨h1, h2, h3, h4, h5⟩
  | endDialog =>
    dsimp only [timerStep]
    by_cases hd : s.isInContinuousDialog = true
    · rw [if_pos hd]
      by_cases hb : s.backgroundVoiceDetection = true
      · rw [if_pos hb]
        dsimp only [TimerInv]
        refine ⟨?_, ?_, ?_, fun _ => rfl, ?_⟩
        · intro t ht
          exact Option.noConfusion ht
        · intro t ht
          exact Option.noConfusion ht
        · intro x hm
          rw [mem_cancelTimer] at hm
          rcases hm with hx | hm
          · exact (h2 _ hx).2
          · rw [mem_cancelTimer] at hm
            rcases hm with hx | hm'
            · exact (h1 _ hx).2
            · exact h3 _ hm'
        · intro t u ht hu
          exact Option.noConfusion ht
      · rw [if_neg hb]
        dsimp only [TimerInv]
        refine ⟨?_, ?_, ?_, h4, ?_⟩
        · intro t ht
          exact Option.noConfusion ht
        · intro t ht
          obtain ⟨hnc, hlt⟩ := h2 t ht
          refine ⟨?_, hlt⟩
          rw [mem_cancelTimer]
          rintro (hx | hm)
          · exact h5 t t hx ht rfl
          · exact hnc hm
        · intro x hm
          rw [mem_cancelTimer] at hm
          rcases hm with hx | hm
          · exact (h1 _ hx).2
          · exact h3 _ hm
        · intro t u ht hu
          exact Option.noConfusion ht
    · rw [if_neg hd]
      exact ⟨h1, h2, h3, h4, h5⟩
  | fireSilence t =>
    dsimp only [timerStep]
    by_cases hf : s.silenceTimer = some t
    · rw [if_pos hf]
      dsimp only [TimerInv]
      refine ⟨?_, h2, h3, h4, ?_⟩
      · intro u hu
        exact Option.noConfusion hu
      · intro u v hu hv
        exact Option.noConfusion hu
    · rw [if_neg hf]
      exact ⟨h1, h2, h3, h4, h5⟩


/-- The timer invariant holds in every reachable state. -/
theorem timerInv_reachable (s : TimerState) (h : TimerReachable s) :
    TimerInv s := by
  induction h with
  | init => exact timerInv_init
  | step s' e _ ih => exact timerInv_step s' e ih

/-- C5: ending an active continuous-dialog session (manually or via silence
expiry — both run the same synchronous tail) leaves the session `Ended`
(`isInContinuousDialog = false`) with both the 20-second silence timer and the
interruption-monitor poll timer cancelled; and in every reachable state a
timer handle that was cancelled is no longer armed, so its callback can never
run — in particular firing a cancelled silence timer is a no-op. -/
theorem c5_session_end_cancels_timers (s : TimerState) (hr : TimerReachable s) :
    (s.isInContinuousDialog = true →
      (timerStep s TimerEvent.endDialog).silenceTimer = none
      ∧ (timerStep s TimerEvent.endDialog).voiceDetectionTimer = none
      ∧ (timerStep s TimerEvent.endDialog).isInContinuousDialog = false)
    ∧ (∀ t, t ∈ s.cancelled →
      s.silenceTimer ≠ some t ∧ s.voiceDetectionTimer ≠ some t
      ∧ timerStep s (TimerEvent.fireSilence t) = s) := by
  obtain ⟨h1, h2, h3, h4, h5⟩ := timerInv_reachable s hr
  constructor
  · intro hd
    by_cases hb : s.backgroundVoiceDetection = true
    · rw [timerStep, if_pos hd, if_pos hb]
      exact ⟨rfl, rfl, rfl⟩
    · rw [timerStep, if_pos hd, if_neg hb]
      refine ⟨rfl, ?_, rfl⟩
      exact h4 (by revert hb; cases s.backgroundVoiceDetection <;> simp)
  · intro t hm
    have hns : s.silenceTimer ≠ some t := fun hx => (h1 t hx).1 hm
    have hnv : s.voiceDetectionTimer ≠ some t := fun hx => (h2 t hx).1 hm
    refine ⟨hns, hnv, ?_⟩
    rw [timerStep, if_neg hns]

/-- Witness for `c5_session_end_cancels_timers` on a concrete session that
armed and then cleared its silence timer (handle 0). -/
theorem c5_witness :
    (timerStep timerDemoState TimerEvent.endDialog).silenceTimer = none
    ∧ timerDemoState.silenceTimer ≠ some 0
    ∧ timerStep timerDemoState (TimerEvent.fireSilence 0) = timerDemoState := by
  have hr : TimerReachable timerDemoState := by
    show TimerReachable (timerStep (timerStep (timerStep TimerState.initState
      TimerEvent.startDialog) TimerEvent.armSilence) TimerEvent.clearSilence)
    exact TimerReachable.step _ _ (TimerReachable.step _ _
      (TimerReachable.step _ _ TimerReachable.init))
  have h := c5_session_end_cancels_timers timerDemoState hr
  have h0 : (0 : Nat) ∈ timerDemoState.cancelled := by decide
  exact ⟨(h.1 (by decide)).1, (h.2 0 h0).1, (h.2 0 h0).2.2⟩

end VoiceAssistant
